import Mathlib

/-!
# bip38tool: the streaming pipeline of `main.go`

A shallow embedding of `main.go` (producer, `encrypter`/`decrypter`, `writerCSV`/`writerDetail`,
`init` and `main`) and the properties of the pipeline proved over it.

The three goroutines are sequential processes joined by unbuffered channels, each with one
reader and one writer, so the sequence of values that crosses every channel is a function of
the stage's input sequence.  A stage is therefore embedded as a function from the list of
values it receives to what it sends and prints.

Package `address`, `strconv.Atoi`, `gopass.GetPass` and the environment are outside the
repository; they are parameters of the embedding.  `bufio.Reader.ReadString` and
`strings.TrimSpace` are embedded after their documented behaviour, on text seen as a list of
Unicode characters.
-/

set_option autoImplicit false

namespace Bip38Tool

/-! ## Data model -/

/-- Go's `(value, error)` result pair; `err = none` stands for `err == nil`. -/
structure Ret (α ε : Type) where
  val : α
  err : Option ε
deriving DecidableEq

/-- The operations of package `address` that `main.go` calls.  `P` is `*address.PrivateKey`,
`B` is `*address.BIP38Key`, `E` is `error` and `R` is the state of the random source that
`NewPrivateKey(nil)` draws from.  The last seven fields are the texts that the `%s` and `%x`
verbs of the two writers print. -/
structure Address (P B E R : Type) where
  NewPrivateKey : R → Ret P E × R
  ReadPrivateKey : String → Ret P E
  BIP38Encrypt : P → String → B
  BIP38LoadString : String → Ret B E
  BIP38Decrypt : B → String → Ret P E
  pubString : P → String
  addrString : P → String
  pubHex : P → String
  privString : P → String
  privHex : P → String
  bip38String : B → String
  bip38Hex : B → String

/-- The `Message` struct: the record sent from a transformer to a writer. -/
structure Message (P B : Type) where
  Priv : P
  Bip38 : B
deriving DecidableEq

/-- What a transformer goroutine has done so far: the messages sent on `out` (oldest first),
the errors handed to `log.Println` (oldest first) and the state of the random source. -/
structure Stage (P B E R : Type) where
  out : List (Message P B)
  log : List E
  rng : R
deriving DecidableEq

variable {P B E R : Type}

/-! ## Transformers -/

/-- One iteration of the `for i := range in` loop of `encrypter`. -/
def encrypterBody (c : Address P B E R) (pass : String) (s : Stage P B E R) (i : String) :
    Stage P B E R :=
  if i = "" then
    -- msg.Priv, _ = address.NewPrivateKey(nil): the error is dropped
    let g := c.NewPrivateKey s.rng
    { out := s.out ++ [⟨g.1.val, c.BIP38Encrypt g.1.val pass⟩], log := s.log, rng := g.2 }
  else
    let r := c.ReadPrivateKey i
    match r.err with
    | some e => { out := s.out, log := s.log ++ [e], rng := s.rng }
    | none => { out := s.out ++ [⟨r.val, c.BIP38Encrypt r.val pass⟩], log := s.log, rng := s.rng }

/-- The goroutine of `encrypter(pass)` run over the tokens received on `in`. -/
def encrypter (c : Address P B E R) (pass : String) (tokens : List String) (rng : R) :
    Stage P B E R :=
  tokens.foldl (encrypterBody c pass) ⟨[], [], rng⟩

/-- One iteration of the `for i := range in` loop of `decrypter`. -/
def decrypterBody (c : Address P B E R) (pass : String) (s : Stage P B E R) (i : String) :
    Stage P B E R :=
  let b := c.BIP38LoadString i
  match b.err with
  | some e => { out := s.out, log := s.log ++ [e], rng := s.rng }
  | none =>
    let p := c.BIP38Decrypt b.val pass
    match p.err with
    | some e => { out := s.out, log := s.log ++ [e], rng := s.rng }
    | none => { out := s.out ++ [⟨p.val, b.val⟩], log := s.log, rng := s.rng }

/-- The goroutine of `decrypter(pass)` run over the tokens received on `in`. -/
def decrypter (c : Address P B E R) (pass : String) (tokens : List String) (rng : R) :
    Stage P B E R :=
  tokens.foldl (decrypterBody c pass) ⟨[], [], rng⟩

/-! ## Writers -/

/-- `fmt.Println(s)` for one string operand: the text followed by a newline, appended to the
standard output written so far. -/
def Println (stdout s : String) : String := stdout ++ s ++ "\n"

/-- The goroutine of `writerCSV`: the header, then one `%s,%s\n` line per message. -/
def writerCSV (c : Address P B E R) (inp : List (Message P B)) : String :=
  inp.foldl (fun o i => o ++ (c.pubString i.Priv ++ "," ++ c.bip38String i.Bip38 ++ "\n"))
    (Println "" "Public Key,BIP38 Key")

/-- The goroutine of `writerDetail`: an eight line block per message. -/
def writerDetail (c : Address P B E R) (inp : List (Message P B)) : String :=
  inp.foldl (fun o i =>
    let o := Println o "---"
    let o := o ++ ("Address:    " ++ c.addrString i.Priv ++ "\n")
    let o := o ++ ("PublicHex:  " ++ c.pubHex i.Priv ++ "\n")
    let o := o ++ ("Private:    " ++ c.privString i.Priv ++ "\n")
    let o := o ++ ("PrivateHex: " ++ c.privHex i.Priv ++ "\n")
    let o := o ++ ("Bip38:      " ++ c.bip38String i.Bip38 ++ "\n")
    let o := o ++ ("Bip38Hex:   " ++ c.bip38Hex i.Bip38 ++ "\n")
    Println o "...") ""

/-! ## Producer -/

/-- Go's `unicode.IsSpace`: the characters with the Unicode White_Space property. -/
def isSpace (c : Char) : Bool :=
  let n := c.toNat
  (0x09 ≤ n && n ≤ 0x0D) || n = 0x20 || n = 0x85 || n = 0xA0 || n = 0x1680 ||
    (0x2000 ≤ n && n ≤ 0x200A) || n = 0x2028 || n = 0x2029 || n = 0x202F || n = 0x205F ||
    n = 0x3000

/-- Go's `strings.TrimSpace`: the string without its leading and trailing white space. -/
def TrimSpace (s : String) : String :=
  ⟨(s.data.dropWhile isSpace).rdropWhile isSpace⟩

/-- Go's `reader.ReadString(delim)` on a reader that still delivers the characters `buf` and
then fails: the text read (up to and including the first `delim`, or all of `buf` when there is
none), whether an error is returned with it, and what is left to read. -/
def ReadString (delim : Char) : List Char → (String × Bool) × List Char
  | [] => (("", true), [])
  | c :: cs =>
    if c = delim then ((⟨[c]⟩, false), cs)
    else
      let r := ReadString delim cs
      ((⟨c :: r.1.1.data⟩, r.1.2), r.2)

/-- The `for` loop of the batch branch of `main`: the lines sent on `in`. -/
def batchLoop (buf : List Char) : List String :=
  let r := ReadString '\n' buf
  if _h : r.1.2 = true then
    []
  else
    TrimSpace r.1.1 :: batchLoop r.2
termination_by buf.length
decreasing_by
  simp_wf
  have key : ∀ l : List Char, (ReadString '\n' l).1.2 ≠ true →
      (ReadString '\n' l).2.length < l.length := by
    intro l
    induction l with
    | nil => simp [ReadString]
    | cons c cs ih =>
      unfold ReadString
      by_cases hc : c = '\n'
      · simp [hc]
      · simp only [hc, if_false]
        intro hne
        exact Nat.lt_succ_of_lt (ih hne)
  exact key buf _h

/-- The loop `for ; n > 0; n-- { in <- "" }` of the new branch of `main`. -/
def newLoop (n : Int) : List String :=
  if 0 < n then "" :: newLoop (n - 1) else []
termination_by n.toNat
decreasing_by
  simp_wf
  omega

/-! ## Configuration and coordinator -/

/-- The entries of the `arguments` map that `init` and `main` read or write.  `none` for
`count`, `privatekey` and `passphrase` is a `nil` entry. -/
structure Arguments where
  encrypt : Bool
  decrypt : Bool
  new : Bool
  batch : Bool
  csv : Bool
  detail : Bool
  askPass : Bool
  count : Option String
  privatekey : Option String
  passphrase : Option String
deriving DecidableEq

/-- First block of `init`: "Batch mode does not work with password prompt.  Docopt causes it to
fall through as a <privatekey>". -/
def initBatch (a : Arguments) : Arguments :=
  if a.privatekey = some "batch" then { a with askPass := false, batch := true } else a

/-- Second block of `init`: the passphrase, asked for twice or read from `BIP38_PASS`.  `value`
and `verify` are the results of the two `gopass.GetPass` calls and `env` is
`os.Getenv("BIP38_PASS")`; an `error` result is a `log.Fatal` with that message. -/
def initPass (a : Arguments) (value verify : Ret String String) (env : String) :
    Except String Arguments :=
  if a.askPass = true then
    match value.err with
    | some e => Except.error e
    | none =>
      match verify.err with
      | some e => Except.error e
      | none =>
        if value.val ≠ verify.val then Except.error "Passphrase does not match!"
        else Except.ok { a with passphrase := some value.val }
  else
    if env = "" then Except.error "Environment Variable BIP38_PASS not found!"
    else Except.ok { a with passphrase := some env }

/-- Third block of `init`: "Batch mode defaults to CSV". -/
def initCsv (a : Arguments) : Arguments :=
  if a.batch = true ∧ a.detail = false then { a with csv := true } else a

/-- The function `init`; `parse` is the result of `docopt.Parse`, whose error is fatal. -/
def init (parse : Except String Arguments) (value verify : Ret String String) (env : String) :
    Except String Arguments :=
  match parse with
  | Except.error e => Except.error e
  | Except.ok a =>
    match initPass (initBatch a) value verify env with
    | Except.error e => Except.error e
    | Except.ok a => Except.ok (initCsv a)

/-- The two writers. -/
inductive Sink where
  | CSV
  | Detail
deriving DecidableEq

/-- Abnormal ends of `main`: a failed `.(string)` assertion on a `nil` entry, or a send on the
`nil` channels left when neither `encrypt` nor `decrypt` is set. -/
inductive Crash where
  | typeAssertion
  | nilChannel
deriving DecidableEq

/-- The writer selected by `if arguments["--csv"] == true`. -/
def selectSink (a : Arguments) : Sink :=
  if a.csv = true then Sink.CSV else Sink.Detail

/-- The selected writer run over the messages it receives. -/
def runSink (c : Address P B E R) : Sink → List (Message P B) → String
  | Sink.CSV => writerCSV c
  | Sink.Detail => writerDetail c

/-- The three branches of `main` that feed `in`: the tokens sent before `close(in)`.  `Atoi` is
the value half of `strconv.Atoi`, whose error `main` drops; `stdin` is what standard input
delivers before its first failed read. -/
def producer (Atoi : String → Int) (a : Arguments) (stdin : List Char) :
    Except Crash (List String) :=
  if a.encrypt = true ∧ a.new = true then
    let n : Int :=
      match a.count with
      | some s => Atoi s
      | none => 1
    Except.ok (newLoop n)
  else if a.batch = true then
    Except.ok (batchLoop stdin)
  else
    match a.privatekey with
    | some k => Except.ok [TrimSpace k]
    | none => Except.error Crash.typeAssertion

/-- The transformer selected by `if arguments["encrypt"] == true ... else if
arguments["decrypt"] == true`, run over the tokens; with neither set `in` and `out` stay `nil`. -/
def transformer (c : Address P B E R) (a : Arguments) (pass : String) (tokens : List String)
    (rng : R) : Except Crash (Stage P B E R) :=
  if a.encrypt = true then Except.ok (encrypter c pass tokens rng)
  else if a.decrypt = true then Except.ok (decrypter c pass tokens rng)
  else Except.error Crash.nilChannel

/-- What a run of `main` leaves behind: the tokens sent on `in`, the transformer's messages,
log and random state, the writer that was started and the standard output. -/
structure Run (P B E R : Type) where
  tokens : List String
  stage : Stage P B E R
  sink : Sink
  stdout : String
deriving DecidableEq

/-- The function `main`, from the wiring of the stages to `<-done`. -/
def main (c : Address P B E R) (Atoi : String → Int) (a : Arguments) (stdin : List Char)
    (rng : R) : Except Crash (Run P B E R) := do
  let pass ←
    match a.passphrase with
    | some p => Except.ok p
    | none => Except.error Crash.typeAssertion
  let sink := selectSink a
  let tokens ← producer Atoi a stdin
  let stage ← transformer c a pass tokens rng
  return { tokens := tokens, stage := stage, sink := sink, stdout := runSink c sink stage.out }

/-! ## A deterministic stand-in for package `address` -/

/-- A stand-in for package `address`: private keys are numbers (`none` is the `nil` pointer),
an encrypted key is the key paired with its passphrase, and the random source is a counter of
the keys it can still deliver, failing once it has reached `0`.  The seven renderings are
those of the keys `some k`; what they give at `none` stands for nothing, since the writers of
`main.go` dereference `i.Priv`, and no statement below renders a `none` key. -/
def fake : Address (Option Nat) (Option Nat × String) String Nat where
  NewPrivateKey := fun r =>
    match r with
    | 0 => (⟨none, some "entropy exhausted"⟩, 0)
    | k + 1 => (⟨some (100 + k), none⟩, k)
  ReadPrivateKey := fun i =>
    if i = "k1" then ⟨some 1, none⟩
    else if i = "k2" then ⟨some 2, none⟩
    else ⟨none, some "incorrect format"⟩
  BIP38Encrypt := fun p pass => (p, pass)
  BIP38LoadString := fun i =>
    if i = "e1" then ⟨(some 1, "secret"), none⟩
    else if i = "e2" then ⟨(some 2, "other"), none⟩
    else ⟨(none, ""), some "invalid checksum"⟩
  BIP38Decrypt := fun b pass =>
    if b.2 = pass then ⟨b.1, none⟩ else ⟨none, some "wrong passphrase"⟩
  pubString := fun p => "pub" ++ toString (p.getD 0)
  addrString := fun p => "addr" ++ toString (p.getD 0)
  pubHex := fun p => "04" ++ toString (p.getD 0)
  privString := fun p => "priv" ++ toString (p.getD 0)
  privHex := fun p => "80" ++ toString (p.getD 0)
  bip38String := fun b => "6P" ++ toString (b.1.getD 0)
  bip38Hex := fun b => "0142" ++ toString (b.1.getD 0)

/-- The arguments of `BIP38_PASS=secret bip38tool encrypt -c new`. -/
def encryptNewCsv : Arguments where
  encrypt := true
  decrypt := false
  new := true
  batch := false
  csv := true
  detail := false
  askPass := false
  count := some "1"
  privatekey := none
  passphrase := some "secret"

/-- What `docopt.Parse` returns for `bip38tool encrypt new`. -/
def encryptNew : Arguments where
  encrypt := true
  decrypt := false
  new := true
  batch := false
  csv := false
  detail := false
  askPass := false
  count := some "1"
  privatekey := none
  passphrase := none

/-- The arguments of `BIP38_PASS=secret bip38tool decrypt batch`, after `init`. -/
def decryptBatch : Arguments where
  encrypt := false
  decrypt := true
  new := false
  batch := true
  csv := true
  detail := false
  askPass := false
  count := some "1"
  privatekey := none
  passphrase := some "secret"

/-- The arguments of `BIP38_PASS=secret bip38tool encrypt "  "`, after `init`. -/
def encryptBlank : Arguments where
  encrypt := true
  decrypt := false
  new := false
  batch := false
  csv := false
  detail := false
  askPass := false
  count := some "1"
  privatekey := some "  "
  passphrase := some "secret"

/-- A stand-in for the value half of `strconv.Atoi` (`0` when the text is not a number). -/
def fakeAtoi (s : String) : Int :=
  if s.data.all Char.isDigit then Int.ofNat (s.data.foldl (fun n d => 10 * n + (d.toNat - 48)) 0)
  else 0

/-! ## Specification side: what the stages are compared with -/

/-- The record that the encrypting transformer owes for one token, read off the component
design: an empty token asks for a fresh key, any other token is parsed, and the key is then
encrypted; a token on which a collaborator step fails has no record.  The random state is
threaded through. -/
def encryptResult (c : Address P B E R) (pass : String) (rng : R) (i : String) :
    Option (Message P B) × R :=
  if i = "" then
    let g := c.NewPrivateKey rng
    match g.1.err with
    | none => (some ⟨g.1.val, c.BIP38Encrypt g.1.val pass⟩, g.2)
    | some _ => (none, g.2)
  else
    match (c.ReadPrivateKey i).err with
    | none => (some ⟨(c.ReadPrivateKey i).val, c.BIP38Encrypt (c.ReadPrivateKey i).val pass⟩, rng)
    | some _ => (none, rng)

/-- The records owed for a sequence of tokens in encrypt mode, in input order. -/
def encryptResults (c : Address P B E R) (pass : String) : List String → R → List (Message P B)
  | [], _ => []
  | i :: rest, rng =>
    (encryptResult c pass rng i).1.toList ++ encryptResults c pass rest (encryptResult c pass rng i).2

/-- The record that the decrypting transformer owes for one token: the token parsed as an
encrypted key and decrypted, when both steps succeed. -/
def decryptResult (c : Address P B E R) (pass : String) (i : String) : Option (Message P B) :=
  match (c.BIP38LoadString i).err with
  | some _ => none
  | none =>
    match (c.BIP38Decrypt (c.BIP38LoadString i).val pass).err with
    | some _ => none
    | none => some ⟨(c.BIP38Decrypt (c.BIP38LoadString i).val pass).val, (c.BIP38LoadString i).val⟩

/-- The random states at which `encrypter` calls `NewPrivateKey` while it works through the
tokens, in call order. -/
def generateCalls (c : Address P B E R) : List String → R → List R
  | [], _ => []
  | i :: rest, rng =>
    if i = "" then rng :: generateCalls c rest (c.NewPrivateKey rng).2
    else generateCalls c rest rng

/-- The newline-terminated lines of a text, without their newlines: the pieces between
newlines, except the piece after the last newline. -/
def lines (text : List Char) : List (List Char) :=
  (text.splitOn '\n').dropLast

/-- The text of the line that the CSV writer owes for one message: public key, a comma,
encrypted key. -/
def csvLine (c : Address P B E R) (m : Message P B) : String :=
  c.pubString m.Priv ++ "," ++ c.bip38String m.Bip38

/-! ## The transformers, token by token -/

/-- The loop body of `encrypter` only appends to what was sent and logged before. -/
theorem encrypterBody_acc (c : Address P B E R) (pass : String) (s : Stage P B E R)
    (i : String) :
    encrypterBody c pass s i =
      ⟨s.out ++ (encrypterBody c pass ⟨[], [], s.rng⟩ i).out,
        s.log ++ (encrypterBody c pass ⟨[], [], s.rng⟩ i).log,
        (encrypterBody c pass ⟨[], [], s.rng⟩ i).rng⟩ := by
  unfold encrypterBody
  by_cases h : i = ""
  · simp [h]
  · simp only [h, if_false]
    cases (c.ReadPrivateKey i).err <;> simp

/-- The loop of `encrypter` started from any state is the earlier output followed by the output
of a fresh run from the same random state. -/
theorem foldl_encrypterBody (c : Address P B E R) (pass : String) (tokens : List String)
    (s : Stage P B E R) :
    tokens.foldl (encrypterBody c pass) s =
      ⟨s.out ++ (encrypter c pass tokens s.rng).out,
        s.log ++ (encrypter c pass tokens s.rng).log,
        (encrypter c pass tokens s.rng).rng⟩ := by
  induction tokens generalizing s with
  | nil => simp [encrypter]
  | cons t ts ih =>
    have h1 := ih (encrypterBody c pass s t)
    have h2 := ih (encrypterBody c pass ⟨[], [], s.rng⟩ t)
    simp only [encrypter, List.foldl_cons] at h1 h2 ⊢
    rw [h1, h2, encrypterBody_acc c pass s t]
    simp [encrypter, List.append_assoc]

/-- The run of `encrypter` on a non-empty token sequence, first token apart. -/
theorem encrypter_cons (c : Address P B E R) (pass : String) (t : String) (ts : List String)
    (rng : R) :
    encrypter c pass (t :: ts) rng =
      ⟨(encrypterBody c pass ⟨[], [], rng⟩ t).out ++
          (encrypter c pass ts (encrypterBody c pass ⟨[], [], rng⟩ t).rng).out,
        (encrypterBody c pass ⟨[], [], rng⟩ t).log ++
          (encrypter c pass ts (encrypterBody c pass ⟨[], [], rng⟩ t).rng).log,
        (encrypter c pass ts (encrypterBody c pass ⟨[], [], rng⟩ t).rng).rng⟩ := by
  have h := foldl_encrypterBody c pass ts (encrypterBody c pass ⟨[], [], rng⟩ t)
  simpa [encrypter] using h

/-- The loop body of `decrypter` leaves the random source alone. -/
theorem decrypterBody_rng (c : Address P B E R) (pass : String) (s : Stage P B E R)
    (i : String) : (decrypterBody c pass s i).rng = s.rng := by
  unfold decrypterBody
  dsimp only
  split
  · rfl
  · split <;> rfl

/-- The loop body of `decrypter` only appends to what was sent and logged before. -/
theorem decrypterBody_acc (c : Address P B E R) (pass : String) (s : Stage P B E R)
    (i : String) :
    decrypterBody c pass s i =
      ⟨s.out ++ (decrypterBody c pass ⟨[], [], s.rng⟩ i).out,
        s.log ++ (decrypterBody c pass ⟨[], [], s.rng⟩ i).log, s.rng⟩ := by
  unfold decrypterBody
  dsimp only
  split
  · simp
  · split <;> simp

/-- The loop of `decrypter` started from any state is the earlier output followed by the output
of a fresh run. -/
theorem foldl_decrypterBody (c : Address P B E R) (pass : String) (tokens : List String)
    (s : Stage P B E R) :
    tokens.foldl (decrypterBody c pass) s =
      ⟨s.out ++ (decrypter c pass tokens s.rng).out,
        s.log ++ (decrypter c pass tokens s.rng).log, s.rng⟩ := by
  induction tokens generalizing s with
  | nil => simp [decrypter]
  | cons t ts ih =>
    have h1 := ih (decrypterBody c pass s t)
    have h2 := ih (decrypterBody c pass ⟨[], [], s.rng⟩ t)
    simp only [decrypter, List.foldl_cons, decrypterBody_rng] at h1 h2 ⊢
    rw [h1, h2, decrypterBody_acc c pass s t]
    simp [List.append_assoc]

/-- The run of `decrypter` on a non-empty token sequence, first token apart. -/
theorem decrypter_cons (c : Address P B E R) (pass : String) (t : String) (ts : List String)
    (rng : R) :
    decrypter c pass (t :: ts) rng =
      ⟨(decrypterBody c pass ⟨[], [], rng⟩ t).out ++ (decrypter c pass ts rng).out,
        (decrypterBody c pass ⟨[], [], rng⟩ t).log ++ (decrypter c pass ts rng).log, rng⟩ := by
  have h := foldl_decrypterBody c pass ts (decrypterBody c pass ⟨[], [], rng⟩ t)
  have hr : (decrypterBody c pass ⟨[], [], rng⟩ t).rng = rng := by
    rw [decrypterBody_acc]
  simpa [decrypter, hr] using h

/-- The messages of `decrypter` are the records of the tokens that parse and decrypt, in
input order. -/
theorem decrypter_out (c : Address P B E R) (pass : String) (tokens : List String) (rng : R) :
    (decrypter c pass tokens rng).out = tokens.filterMap (decryptResult c pass) := by
  induction tokens with
  | nil => simp [decrypter]
  | cons t ts ih =>
    rw [decrypter_cons]
    simp only [ih]
    unfold decrypterBody decryptResult
    dsimp only
    cases h1 : (c.BIP38LoadString t).err with
    | some e => simp [List.filterMap_cons, decryptResult, h1]
    | none =>
      cases h2 : (c.BIP38Decrypt (c.BIP38LoadString t).val pass).err with
      | some e => simp [List.filterMap_cons, decryptResult, h1, h2]
      | none => simp [List.filterMap_cons, decryptResult, h1, h2]

/-- While no call of `NewPrivateKey` fails, the messages of `encrypter` are the records of the
tokens on which every collaborator step succeeds, in input order. -/
theorem encrypter_out_of_generate_ok (c : Address P B E R) (pass : String)
    (tokens : List String) (rng : R)
    (hgen : ∀ r ∈ generateCalls c tokens rng, (c.NewPrivateKey r).1.err = none) :
    (encrypter c pass tokens rng).out = encryptResults c pass tokens rng := by
  induction tokens generalizing rng with
  | nil => simp [encrypter, encryptResults]
  | cons t ts ih =>
    rw [encrypter_cons]
    by_cases ht : t = ""
    · subst ht
      have h0 : (c.NewPrivateKey rng).1.err = none := hgen rng (by simp [generateCalls])
      have hrest : ∀ r ∈ generateCalls c ts (c.NewPrivateKey rng).2,
          (c.NewPrivateKey r).1.err = none := by
        intro r hr
        exact hgen r (by simp [generateCalls, hr])
      simp [encrypterBody, encryptResults, encryptResult, h0, ih _ hrest]
    · have hrest : ∀ r ∈ generateCalls c ts rng, (c.NewPrivateKey r).1.err = none := by
        intro r hr
        exact hgen r (by simp [generateCalls, ht, hr])
      cases h1 : (c.ReadPrivateKey t).err with
      | some e => simp [encrypterBody, encryptResults, encryptResult, ht, h1, ih _ hrest]
      | none => simp [encrypterBody, encryptResults, encryptResult, ht, h1, ih _ hrest]

/-- One iteration of `encrypter` either sends one message and logs nothing, or logs one error
and sends nothing. -/
theorem encrypterBody_one (c : Address P B E R) (pass : String) (s : Stage P B E R)
    (i : String) :
    ((encrypterBody c pass s i).out.length = s.out.length + 1 ∧
        (encrypterBody c pass s i).log = s.log) ∨
      ((encrypterBody c pass s i).out = s.out ∧
        (encrypterBody c pass s i).log.length = s.log.length + 1) := by
  unfold encrypterBody
  by_cases h : i = ""
  · simp [h]
  · simp only [h, if_false]
    cases (c.ReadPrivateKey i).err <;> simp

/-- One iteration of `decrypter` either sends one message and logs nothing, or logs one error
and sends nothing. -/
theorem decrypterBody_one (c : Address P B E R) (pass : String) (s : Stage P B E R)
    (i : String) :
    ((decrypterBody c pass s i).out.length = s.out.length + 1 ∧
        (decrypterBody c pass s i).log = s.log) ∨
      ((decrypterBody c pass s i).out = s.out ∧
        (decrypterBody c pass s i).log.length = s.log.length + 1) := by
  unfold decrypterBody
  dsimp only
  split
  · simp
  · split <;> simp

/-- Messages and log lines of `encrypter` add up to the number of tokens. -/
theorem encrypter_length (c : Address P B E R) (pass : String) (tokens : List String)
    (rng : R) :
    (encrypter c pass tokens rng).out.length + (encrypter c pass tokens rng).log.length =
      tokens.length := by
  induction tokens generalizing rng with
  | nil => simp [encrypter]
  | cons t ts ih =>
    rw [encrypter_cons]
    have h := ih (encrypterBody c pass ⟨[], [], rng⟩ t).rng
    rcases encrypterBody_one c pass ⟨[], [], rng⟩ t with ⟨h1, h2⟩ | ⟨h1, h2⟩
    · simp only [List.length_append, List.length_cons, h1, h2, List.length_nil] at h ⊢
      omega
    · simp only [List.length_append, List.length_cons, h1, h2, List.length_nil] at h ⊢
      omega

/-- Messages and log lines of `decrypter` add up to the number of tokens. -/
theorem decrypter_length (c : Address P B E R) (pass : String) (tokens : List String)
    (rng : R) :
    (decrypter c pass tokens rng).out.length + (decrypter c pass tokens rng).log.length =
      tokens.length := by
  induction tokens with
  | nil => simp [decrypter]
  | cons t ts ih =>
    rw [decrypter_cons]
    rcases decrypterBody_one c pass ⟨[], [], rng⟩ t with ⟨h1, h2⟩ | ⟨h1, h2⟩
    · simp only [List.length_append, List.length_cons, h1, h2, List.length_nil] at ih ⊢
      omega
    · simp only [List.length_append, List.length_cons, h1, h2, List.length_nil] at ih ⊢
      omega

/-! ## Claims about the transformers -/

/-- C6: in either transformer the number of messages sent is the number of tokens minus the
number of errors logged, and each token makes its iteration do exactly one of the two: send one
message and log nothing, or log one error and send nothing. -/
theorem records_eq_tokens_minus_diagnostics (c : Address P B E R) (pass : String)
    (tokens : List String) (rng : R) :
    ((encrypter c pass tokens rng).out.length =
        tokens.length - (encrypter c pass tokens rng).log.length ∧
      (encrypter c pass tokens rng).log.length ≤ tokens.length) ∧
    ((decrypter c pass tokens rng).out.length =
        tokens.length - (decrypter c pass tokens rng).log.length ∧
      (decrypter c pass tokens rng).log.length ≤ tokens.length) ∧
    (∀ (s : Stage P B E R) (i : String),
      ((encrypterBody c pass s i).out.length = s.out.length + 1 ∧
          (encrypterBody c pass s i).log = s.log) ∨
        ((encrypterBody c pass s i).out = s.out ∧
          (encrypterBody c pass s i).log.length = s.log.length + 1)) ∧
    (∀ (s : Stage P B E R) (i : String),
      ((decrypterBody c pass s i).out.length = s.out.length + 1 ∧
          (decrypterBody c pass s i).log = s.log) ∨
        ((decrypterBody c pass s i).out = s.out ∧
          (decrypterBody c pass s i).log.length = s.log.length + 1)) := by
  have he := encrypter_length c pass tokens rng
  have hd := decrypter_length c pass tokens rng
  refine ⟨⟨by omega, by omega⟩, ⟨by omega, by omega⟩, ?_, ?_⟩
  · exact encrypterBody_one c pass
  · exact decrypterBody_one c pass

/-- C1, at a failing generate: with the random source exhausted, the empty first token still
yields a message, so the messages of `encrypter` are not the records of the tokens on which
every collaborator step succeeded (only the third token, `k1`, is such a token). -/
theorem encrypter_out_ne_results_on_exhausted_source :
    (fake.NewPrivateKey 0).1.err = some "entropy exhausted" ∧
    (encrypter fake "secret" ["", "zz", "k1"] 0).out =
      [⟨none, (none, "secret")⟩, ⟨some 1, (some 1, "secret")⟩] ∧
    encryptResults fake "secret" ["", "zz", "k1"] 0 = [⟨some 1, (some 1, "secret")⟩] := by
  decide

/-- C2, at a failing generate: with the random source exhausted, `encrypter` sends a message
for the empty token and goes on to the next token, whose message it sends too; nothing is
logged and the run does not stop. -/
theorem encrypter_continues_after_failed_generate :
    (fake.NewPrivateKey 0).1.err = some "entropy exhausted" ∧
    encrypter fake "secret" ["", "k2"] 0 =
      ⟨[⟨none, (none, "secret")⟩, ⟨some 2, (some 2, "secret")⟩], [], 0⟩ := by
  decide

/-! ## The producer -/

/-- The loop of the new branch sends `n` empty tokens, none when `n` is not positive. -/
theorem newLoop_eq (n : Int) : newLoop n = List.replicate n.toNat "" := by
  generalize h : n.toNat = k
  induction k generalizing n with
  | zero =>
    rw [newLoop]
    have : ¬ 0 < n := by omega
    simp [this]
  | succ k ih =>
    rw [newLoop]
    have hpos : 0 < n := by omega
    have hk : (n - 1).toNat = k := by omega
    simp [hpos, ih (n - 1) hk, List.replicate_succ]

/-- C3, at a failing generate: in encrypt/new mode with the random source exhausted, the
producer sends one empty token and the transformer started by `main` sends on `out`, the
channel the writer reads, a message whose private key is the value returned by the failed
`NewPrivateKey` and whose encrypted key is the encryption of that value; nothing is logged. -/
theorem failed_generate_record_reaches_sink :
    (fake.NewPrivateKey 0).1.err = some "entropy exhausted" ∧
    producer fakeAtoi encryptNewCsv [] = Except.ok [""] ∧
    transformer fake encryptNewCsv "secret" [""] 0 =
      Except.ok
        { out := [⟨(fake.NewPrivateKey 0).1.val,
            fake.BIP38Encrypt (fake.NewPrivateKey 0).1.val "secret"⟩]
          log := []
          rng := 0 } := by
  refine ⟨by decide, ?_, ?_⟩
  · have hn : fakeAtoi "1" = 1 := by decide
    simp [producer, encryptNewCsv, newLoop_eq, hn]
  · simp only [transformer, encryptNewCsv, if_true]
    exact congrArg Except.ok (by decide)

/-- On empty tokens only, `encrypter` logs nothing and sends one message per token. -/
theorem encrypter_replicate_empty (c : Address P B E R) (pass : String) (N : Nat) (rng : R) :
    (encrypter c pass (List.replicate N "") rng).log = [] ∧
      (encrypter c pass (List.replicate N "") rng).out.length = N := by
  induction N generalizing rng with
  | zero => simp [encrypter]
  | succ k ih =>
    rw [List.replicate_succ, encrypter_cons]
    have h := ih (encrypterBody c pass ⟨[], [], rng⟩ "").rng
    simp [encrypterBody, h.1, h.2] at h ⊢
    exact h

/-- C7: in encrypt/new mode with count `N ≥ 1`, the producer sends exactly `N` empty tokens
before it closes `in`, and the run ends normally with exactly `N` messages sent by `encrypter`
(whatever `NewPrivateKey` reports, so in particular when it does not fail). -/
theorem generate_mode_emits_count_records (c : Address P B E R) (Atoi : String → Int)
    (a : Arguments) (stdin : List Char) (rng : R) (pass s : String) (N : Nat)
    (henc : a.encrypt = true) (hnew : a.new = true) (hpass : a.passphrase = some pass)
    (hcount : a.count = some s) (hN : Atoi s = (N : Int)) (_h1 : 1 ≤ N) :
    producer Atoi a stdin = Except.ok (List.replicate N "") ∧
    ∃ run, main c Atoi a stdin rng = Except.ok run ∧
      run.tokens = List.replicate N "" ∧ run.stage.out.length = N := by
  have hp : producer Atoi a stdin = Except.ok (List.replicate N "") := by
    simp [producer, henc, hnew, hcount, hN, newLoop_eq]
  refine ⟨hp, ⟨List.replicate N "", encrypter c pass (List.replicate N "") rng, selectSink a,
    runSink c (selectSink a) (encrypter c pass (List.replicate N "") rng).out⟩, ?_, rfl, ?_⟩
  · unfold main
    simp only [hpass, hp]
    simp [bind, Except.bind, transformer, henc, pure, Except.pure]
  · exact (encrypter_replicate_empty c pass N rng).2

/-- The witness of C7: three keys asked for on `bip38tool encrypt -c new --count=3`. -/
theorem generate_mode_emits_count_records_witness :
    producer fakeAtoi { encryptNewCsv with count := some "3" } [] =
        Except.ok (List.replicate 3 "") ∧
    ∃ run, main fake fakeAtoi { encryptNewCsv with count := some "3" } [] 5 = Except.ok run ∧
      run.tokens = List.replicate 3 "" ∧ run.stage.out.length = 3 :=
  generate_mode_emits_count_records fake fakeAtoi { encryptNewCsv with count := some "3" } [] 5
    "secret" "3" 3 (by decide) (by decide) (by decide) (by decide) (by decide) (by decide)

/-! ## The choice of the writer -/

/-- The passphrase block of `init` changes the `<passphrase>` entry only. -/
theorem initPass_ok (a a' : Arguments) (value verify : Ret String String) (env : String)
    (h : initPass a value verify env = Except.ok a') :
    a'.csv = a.csv ∧ a'.batch = a.batch ∧ a'.detail = a.detail := by
  unfold initPass at h
  split at h
  · split at h
    · exact absurd h (by simp)
    · split at h
      · exact absurd h (by simp)
      · split at h
        · exact absurd h (by simp)
        · cases h
          exact ⟨rfl, rfl, rfl⟩
  · split at h
    · exact absurd h (by simp)
    · cases h
      exact ⟨rfl, rfl, rfl⟩

/-- The `--csv` entry after `init`: set when it was given, or when the mode is batch (the
`batch` command, or a `<privatekey>` that reads `batch`) and `--detail` was not given. -/
theorem init_csv (a a' : Arguments) (value verify : Ret String String) (env : String)
    (h : init (Except.ok a) value verify env = Except.ok a') :
    a'.csv = (a.csv || ((a.batch || decide (a.privatekey = some "batch")) && !a.detail)) := by
  unfold init at h
  simp only at h
  split at h
  · exact absurd h (by simp)
  · rename_i b hb
    cases h
    obtain ⟨h1, h2, h3⟩ := initPass_ok _ _ _ _ _ hb
    unfold initCsv
    unfold initBatch at h1 h2 h3
    by_cases hk : a.privatekey = some "batch"
    · simp only [hk, if_true] at h1 h2 h3
      by_cases hc : b.batch = true ∧ b.detail = false
      · simp only [hc, and_self, if_true]
        simp [← h3, hc.2, hk]
      · simp only [hc, if_false]
        rw [h1]
        have : b.detail = true := by
          rw [h2] at hc
          simpa using hc
        simp [← h3, this, hk]
    · simp only [hk, if_false] at h1 h2 h3
      by_cases hc : b.batch = true ∧ b.detail = false
      · simp only [hc, and_self, if_true]
        rw [h2, h3] at hc
        simp [hc.1, hc.2]
      · simp only [hc, if_false]
        rw [h1]
        rw [h2, h3] at hc
        simp only [hk, decide_False, Bool.or_false]
        cases hb1 : a.batch <;> cases hd : a.detail <;> simp_all

/-- C4, refuted: for `BIP38_PASS=secret bip38tool encrypt new`, with neither output flag given,
`init` leaves `--csv` unset and `main` starts the Detail writer. -/
theorem detail_sink_without_detail_flag :
    encryptNew.detail = false ∧ encryptNew.csv = false ∧
    (init (Except.ok encryptNew) ⟨"", none⟩ ⟨"", none⟩ "secret").map selectSink =
      Except.ok Sink.Detail := by
  refine ⟨rfl, rfl, ?_⟩
  rfl

/-- C4, amended: after `init` the writer started by `main` is the CSV writer exactly when
`--csv` was given or the mode is batch and `--detail` was not given, and the Detail writer
otherwise. -/
theorem sink_selected_after_init (a a' : Arguments) (value verify : Ret String String)
    (env : String) (h : init (Except.ok a) value verify env = Except.ok a') :
    (selectSink a' = Sink.CSV ↔
      (a.csv = true ∨ ((a.batch = true ∨ a.privatekey = some "batch") ∧ a.detail = false))) ∧
    (selectSink a' = Sink.Detail ↔
      ¬ (a.csv = true ∨ ((a.batch = true ∨ a.privatekey = some "batch") ∧ a.detail = false))) := by
  have hc := init_csv a a' value verify env h
  have key : a'.csv = true ↔
      (a.csv = true ∨ ((a.batch = true ∨ a.privatekey = some "batch") ∧ a.detail = false)) := by
    rw [hc]
    simp
  unfold selectSink
  by_cases hcsv : a'.csv = true
  · simp only [hcsv, if_true]
    simp [← key, hcsv]
  · simp only [hcsv, if_false]
    simp [← key, hcsv]

/-- The witness of C4 amended: `bip38tool encrypt new` with the passphrase in the environment. -/
theorem sink_selected_after_init_witness :
    (selectSink { encryptNew with passphrase := some "secret" } = Sink.CSV ↔
      (encryptNew.csv = true ∨
        ((encryptNew.batch = true ∨ encryptNew.privatekey = some "batch") ∧
          encryptNew.detail = false))) ∧
    (selectSink { encryptNew with passphrase := some "secret" } = Sink.Detail ↔
      ¬ (encryptNew.csv = true ∨
        ((encryptNew.batch = true ∨ encryptNew.privatekey = some "batch") ∧
          encryptNew.detail = false))) :=
  sink_selected_after_init encryptNew { encryptNew with passphrase := some "secret" }
    ⟨"", none⟩ ⟨"", none⟩ "secret" rfl

/-- A run of `main` whose passphrase is set, whose producer and whose transformer end
normally. -/
theorem main_ok (c : Address P B E R) (Atoi : String → Int) (a : Arguments)
    (stdin : List Char) (rng : R) (pass : String) (tokens : List String)
    (stage : Stage P B E R) (hp : a.passphrase = some pass)
    (ht : producer Atoi a stdin = Except.ok tokens)
    (hs : transformer c a pass tokens rng = Except.ok stage) :
    main c Atoi a stdin rng =
      Except.ok ⟨tokens, stage, selectSink a, runSink c (selectSink a) stage.out⟩ := by
  unfold main
  simp only [hp, ht]
  simp [bind, Except.bind, hs, pure, Except.pure]

/-- The writer recorded by a run of `main` is the one `selectSink` names, and the standard
output is that writer run over the transformer's messages. -/
theorem main_sink (c : Address P B E R) (Atoi : String → Int) (a : Arguments)
    (stdin : List Char) (rng : R) (run : Run P B E R)
    (h : main c Atoi a stdin rng = Except.ok run) :
    run.sink = selectSink a ∧ run.stdout = runSink c (selectSink a) run.stage.out := by
  cases hp : a.passphrase with
  | none => simp [main, hp, bind, Except.bind] at h
  | some pass =>
    cases ht : producer Atoi a stdin with
    | error e => simp [main, hp, ht, bind, Except.bind] at h
    | ok tokens =>
      cases hs : transformer c a pass tokens rng with
      | error e => simp [main, hp, ht, hs, bind, Except.bind] at h
      | ok stage =>
        rw [main_ok c Atoi a stdin rng pass tokens stage hp ht hs] at h
        cases h
        exact ⟨rfl, rfl⟩

/-! ## The batch reader -/

/-- Reading a line: a newline-free text followed by a newline is returned with its newline,
without error, and the reader is left at what follows. -/
theorem ReadString_line (l rest : List Char) (hl : '\n' ∉ l) :
    ReadString '\n' (l ++ '\n' :: rest) = ((⟨l ++ ['\n']⟩, false), rest) := by
  induction l with
  | nil => simp [ReadString]
  | cons c cs ih =>
    have hc : c ≠ '\n' := fun h => hl (by simp [h])
    have hcs : '\n' ∉ cs := fun h => hl (by simp [h])
    simp [ReadString, hc, ih hcs]

/-- Reading at the end: a newline-free text is returned whole, with the error. -/
theorem ReadString_eof (l : List Char) (hl : '\n' ∉ l) :
    ReadString '\n' l = ((⟨l⟩, true), []) := by
  induction l with
  | nil => rfl
  | cons c cs ih =>
    have hc : c ≠ '\n' := fun h => hl (by simp [h])
    have hcs : '\n' ∉ cs := fun h => hl (by simp [h])
    simp [ReadString, hc, ih hcs]

/-- The batch loop sends the first line, trimmed, and goes on with the rest. -/
theorem batchLoop_line (l rest : List Char) (hl : '\n' ∉ l) :
    batchLoop (l ++ '\n' :: rest) = TrimSpace ⟨l ++ ['\n']⟩ :: batchLoop rest := by
  rw [batchLoop]
  simp [ReadString_line l rest hl]

/-- The batch loop stops, sending nothing, on a text without a newline. -/
theorem batchLoop_eof (l : List Char) (hl : '\n' ∉ l) : batchLoop l = [] := by
  rw [batchLoop]
  simp [ReadString_eof l hl]

/-- The lines of a text that starts with a newline-terminated line. -/
theorem lines_line (l rest : List Char) (hl : '\n' ∉ l) :
    lines (l ++ '\n' :: rest) = l :: lines rest := by
  unfold lines List.splitOn
  have hsplit := List.splitOnP_first (fun x => x == '\n') l
    (by intro x hx hp; exact hl (by simpa [eq_of_beq hp] using hx)) '\n' (by simp) rest
  rw [hsplit]
  exact List.dropLast_cons_of_ne_nil (List.splitOnP_ne_nil _ _)

/-- A text without a newline has no newline-terminated line. -/
theorem lines_eof (l : List Char) (hl : '\n' ∉ l) : lines l = [] := by
  unfold lines List.splitOn
  rw [List.splitOnP_eq_single]
  · rfl
  · intro x hx hp
    exact hl (by simpa [eq_of_beq hp] using hx)

/-- The newline that ends a line does not survive the trimming, nor changes it. -/
theorem TrimSpace_newline (l : List Char) : TrimSpace ⟨l ++ ['\n']⟩ = TrimSpace ⟨l⟩ := by
  have hnl : isSpace '\n' = true := by decide
  show (⟨List.rdropWhile isSpace (List.dropWhile isSpace (l ++ ['\n']))⟩ : String) =
    ⟨List.rdropWhile isSpace (List.dropWhile isSpace l)⟩
  rw [List.dropWhile_append]
  by_cases hd : (List.dropWhile isSpace l).isEmpty = true
  · have hd' : List.dropWhile isSpace l = [] := List.isEmpty_iff.mp hd
    rw [if_pos hd, hd']
    simp [List.dropWhile, hnl, List.rdropWhile_nil]
  · rw [if_neg hd, List.rdropWhile_concat_pos _ _ _ hnl]

/-- A text of white space only is trimmed to the empty string. -/
theorem TrimSpace_blank (w : List Char) (hw : ∀ ch ∈ w, isSpace ch = true) :
    TrimSpace ⟨w⟩ = "" := by
  have hd : List.dropWhile isSpace w = [] := List.dropWhile_eq_nil_iff.mpr hw
  show (⟨List.rdropWhile isSpace (List.dropWhile isSpace w)⟩ : String) = ""
  rw [hd, List.rdropWhile_nil]

/-- Induction over a text line by line: a text is either free of newlines or a newline-free
first line, a newline, and a rest. -/
theorem text_induction {motive : List Char → Prop}
    (eof : ∀ l : List Char, '\n' ∉ l → motive l)
    (line : ∀ l rest : List Char, '\n' ∉ l → motive rest → motive (l ++ '\n' :: rest))
    (s : List Char) : motive s := by
  generalize hn : s.length = n
  induction n using Nat.strong_induction_on generalizing s with
  | _ n ih =>
    by_cases h : '\n' ∈ s
    · obtain ⟨l, rest, rfl, hl⟩ := List.eq_append_cons_of_mem h
      refine line l rest hl (ih rest.length ?_ rest rfl)
      rw [← hn]
      simp only [List.length_append, List.length_cons]
      omega
    · exact eof s h

/-- The batch loop sends the trimmed newline-terminated lines of its input, in order. -/
theorem batchLoop_eq_lines (stdin : List Char) :
    batchLoop stdin = (lines stdin).map (fun l => TrimSpace ⟨l⟩) := by
  induction stdin using text_induction with
  | eof l hl => rw [batchLoop_eof l hl, lines_eof l hl, List.map_nil]
  | line l rest hl ih =>
    rw [batchLoop_line l rest hl, lines_line l rest hl, List.map_cons, ih, TrimSpace_newline]

/-- The batch loop sends as many tokens as its input has newlines. -/
theorem batchLoop_length (stdin : List Char) : (batchLoop stdin).length = stdin.count '\n' := by
  induction stdin using text_induction with
  | eof l hl => rw [batchLoop_eof l hl, List.count_eq_zero.mpr hl, List.length_nil]
  | line l rest hl ih =>
    rw [batchLoop_line l rest hl, List.length_cons, ih, List.count_append, List.count_cons_self,
      List.count_eq_zero.mpr hl]
    omega

/-- What follows the last newline of the input changes nothing in what the batch loop sends. -/
theorem batchLoop_tail (body tail : List Char) (htail : '\n' ∉ tail) :
    batchLoop (body ++ '\n' :: tail) = batchLoop (body ++ ['\n']) := by
  induction body using text_induction with
  | eof l hl =>
    rw [batchLoop_line l tail hl, batchLoop_line l [] hl, batchLoop_eof tail htail,
      batchLoop_eof [] (by simp)]
  | line l rest hl ih =>
    rw [List.append_assoc, List.append_assoc, List.cons_append, List.cons_append,
      batchLoop_line l _ hl, batchLoop_line l _ hl, ih]

/-- In batch mode the producer is the batch loop. -/
theorem producer_batch (Atoi : String → Int) (a : Arguments) (stdin : List Char)
    (hmode : ¬ (a.encrypt = true ∧ a.new = true)) (hbatch : a.batch = true) :
    producer Atoi a stdin = Except.ok (batchLoop stdin) := by
  unfold producer
  rw [if_neg hmode, if_pos hbatch]

/-- A run of `main` depends on standard input through the producer's tokens only. -/
theorem main_congr (c : Address P B E R) (Atoi : String → Int) (a : Arguments)
    (stdin stdin' : List Char) (rng : R)
    (h : producer Atoi a stdin = producer Atoi a stdin') :
    main c Atoi a stdin rng = main c Atoi a stdin' rng := by
  unfold main
  rw [h]

/-! ## Claims about the producer -/

/-- C8: in batch mode the producer sends one token per newline-terminated line of standard
input, in order, each the line with its surrounding white space trimmed; a blank line is sent
as the empty token, not skipped. -/
theorem batch_tokens_are_trimmed_lines (Atoi : String → Int) (a : Arguments)
    (stdin : List Char) (hmode : ¬ (a.encrypt = true ∧ a.new = true))
    (hbatch : a.batch = true) :
    producer Atoi a stdin = Except.ok ((lines stdin).map (fun l => TrimSpace ⟨l⟩)) ∧
    (∀ rest : List Char,
      producer Atoi a ('\n' :: rest) =
        Except.ok ("" :: (lines rest).map (fun l => TrimSpace ⟨l⟩))) := by
  refine ⟨?_, ?_⟩
  · rw [producer_batch Atoi a stdin hmode hbatch, batchLoop_eq_lines]
  · intro rest
    rw [producer_batch Atoi a _ hmode hbatch, batchLoop_eq_lines]
    have h := lines_line [] rest (by simp)
    rw [List.nil_append] at h
    rw [h, List.map_cons, TrimSpace_blank [] (by simp)]

/-- The witness of C8: three lines, the second blank, read by `bip38tool decrypt batch`. -/
theorem batch_tokens_are_trimmed_lines_witness :
    producer fakeAtoi decryptBatch [' ', 'e', '1', ' ', '\n', '\n', 'z', '\n'] =
      Except.ok ((lines [' ', 'e', '1', ' ', '\n', '\n', 'z', '\n']).map
        (fun l => TrimSpace ⟨l⟩)) ∧
    (∀ rest : List Char,
      producer fakeAtoi decryptBatch ('\n' :: rest) =
        Except.ok ("" :: (lines rest).map (fun l => TrimSpace ⟨l⟩))) :=
  batch_tokens_are_trimmed_lines fakeAtoi decryptBatch [' ', 'e', '1', ' ', '\n', '\n', 'z', '\n']
    (by decide) (by decide)

/-- C9: in batch mode the producer sends as many tokens as standard input has newlines; text
after the last newline is dropped with the failed read, so the run is the same as without it:
the same tokens, messages, log and output. -/
theorem batch_token_count_and_tail (c : Address P B E R) (Atoi : String → Int) (a : Arguments)
    (stdin body tail : List Char) (rng : R)
    (hmode : ¬ (a.encrypt = true ∧ a.new = true)) (hbatch : a.batch = true)
    (htail : '\n' ∉ tail) :
    (∃ tokens, producer Atoi a stdin = Except.ok tokens ∧ tokens.length = stdin.count '\n') ∧
    producer Atoi a (body ++ '\n' :: tail) = producer Atoi a (body ++ ['\n']) ∧
    producer Atoi a tail = Except.ok [] ∧
    main c Atoi a (body ++ '\n' :: tail) rng = main c Atoi a (body ++ ['\n']) rng ∧
    main c Atoi a tail rng = main c Atoi a [] rng := by
  have h1 : producer Atoi a (body ++ '\n' :: tail) = producer Atoi a (body ++ ['\n']) := by
    rw [producer_batch Atoi a _ hmode hbatch, producer_batch Atoi a _ hmode hbatch,
      batchLoop_tail body tail htail]
  have h2 : producer Atoi a tail = Except.ok [] := by
    rw [producer_batch Atoi a _ hmode hbatch, batchLoop_eof tail htail]
  have h3 : producer Atoi a [] = Except.ok [] := by
    rw [producer_batch Atoi a _ hmode hbatch, batchLoop_eof [] (by simp)]
  refine ⟨⟨batchLoop stdin, producer_batch Atoi a stdin hmode hbatch, batchLoop_length stdin⟩,
    h1, h2, main_congr c Atoi a _ _ rng h1, main_congr c Atoi a _ _ rng (h2.trans h3.symm)⟩

/-- The witness of C9: `e1`, a newline, and an unterminated `e2` read by
`bip38tool decrypt batch`. -/
theorem batch_token_count_and_tail_witness :
    (∃ tokens, producer fakeAtoi decryptBatch ['e', '1', '\n', 'e', '2'] = Except.ok tokens ∧
      tokens.length = ['e', '1', '\n', 'e', '2'].count '\n') ∧
    producer fakeAtoi decryptBatch (['e', '1'] ++ '\n' :: ['e', '2']) =
      producer fakeAtoi decryptBatch (['e', '1'] ++ ['\n']) ∧
    producer fakeAtoi decryptBatch ['e', '2'] = Except.ok [] ∧
    main fake fakeAtoi decryptBatch (['e', '1'] ++ '\n' :: ['e', '2']) 0 =
      main fake fakeAtoi decryptBatch (['e', '1'] ++ ['\n']) 0 ∧
    main fake fakeAtoi decryptBatch ['e', '2'] 0 = main fake fakeAtoi decryptBatch [] 0 :=
  batch_token_count_and_tail fake fakeAtoi decryptBatch ['e', '1', '\n', 'e', '2'] ['e', '1']
    ['e', '2'] 0 (by decide) (by decide) (by decide)

/-- C10: in encrypt mode a token that is empty once trimmed (a white-space-only positional
argument, or a white-space-only batch line) makes `encrypter` call `NewPrivateKey`, send the
message of the returned key and log nothing, which is the run of one Generate-mode token. -/
theorem blank_token_generates_key (c : Address P B E R) (Atoi : String → Int) (a : Arguments)
    (stdin : List Char) (rng : R) (pass : String) (w : List Char) (s : Stage P B E R)
    (henc : a.encrypt = true) (hnew : a.new = false) (hpass : a.passphrase = some pass)
    (hw : ∀ ch ∈ w, isSpace ch = true)
    (hmode : (a.batch = false ∧ a.privatekey = some ⟨w⟩) ∨
      (a.batch = true ∧ '\n' ∉ w ∧ stdin = w ++ ['\n'])) :
    encrypterBody c pass s (TrimSpace ⟨w⟩) =
      ⟨s.out ++ [⟨(c.NewPrivateKey s.rng).1.val,
          c.BIP38Encrypt (c.NewPrivateKey s.rng).1.val pass⟩],
        s.log, (c.NewPrivateKey s.rng).2⟩ ∧
    ∃ run, main c Atoi a stdin rng = Except.ok run ∧ run.tokens = [""] ∧
      run.stage = encrypter c pass (newLoop 1) rng ∧
      run.stage.out =
        [⟨(c.NewPrivateKey rng).1.val, c.BIP38Encrypt (c.NewPrivateKey rng).1.val pass⟩] ∧
      run.stage.log = [] := by
  have htrim : TrimSpace ⟨w⟩ = "" := TrimSpace_blank w hw
  have hnot : ¬ (a.encrypt = true ∧ a.new = true) := by simp [hnew]
  have hprod : producer Atoi a stdin = Except.ok [""] := by
    rcases hmode with ⟨hb, hk⟩ | ⟨hb, hnl, hstdin⟩
    · unfold producer
      rw [if_neg hnot, if_neg (by simp [hb])]
      simp [hk, htrim]
    · rw [producer_batch Atoi a stdin hnot hb, hstdin, batchLoop_line w [] hnl,
        TrimSpace_newline, htrim, batchLoop_eof [] (by simp)]
  have htrans : transformer c a pass [""] rng = Except.ok (encrypter c pass [""] rng) := by
    simp [transformer, henc]
  have hone : newLoop 1 = [""] := by
    rw [newLoop_eq]
    rfl
  refine ⟨?_, ⟨[""], encrypter c pass [""] rng, selectSink a,
    runSink c (selectSink a) (encrypter c pass [""] rng).out⟩,
    main_ok c Atoi a stdin rng pass [""] _ hpass hprod htrans, rfl, ?_, ?_, ?_⟩
  · rw [htrim]
    simp [encrypterBody]
  · rw [hone]
  · simp [encrypter, encrypterBody]
  · simp [encrypter, encrypterBody]

/-- The witness of C10: `bip38tool encrypt "  "`, two blanks as the private key. -/
theorem blank_token_generates_key_witness :
    encrypterBody fake "secret" ⟨[], [], 5⟩ (TrimSpace ⟨[' ', ' ']⟩) =
      ⟨[] ++ [⟨(fake.NewPrivateKey 5).1.val,
          fake.BIP38Encrypt (fake.NewPrivateKey 5).1.val "secret"⟩],
        [], (fake.NewPrivateKey 5).2⟩ ∧
    ∃ run, main fake fakeAtoi encryptBlank [] 5 = Except.ok run ∧ run.tokens = [""] ∧
      run.stage = encrypter fake "secret" (newLoop 1) 5 ∧
      run.stage.out =
        [⟨(fake.NewPrivateKey 5).1.val, fake.BIP38Encrypt (fake.NewPrivateKey 5).1.val "secret"⟩] ∧
      run.stage.log = [] :=
  blank_token_generates_key fake fakeAtoi encryptBlank [] 5 "secret" [' ', ' '] ⟨[], [], 5⟩
    (by decide) (by decide) (by decide) (by decide) (Or.inl (by decide))

/-! ## The CSV writer -/

/-- A loop that appends one text per item prints the texts in order after what was printed
before. -/
theorem foldl_append_data {α : Type} (f : α → String) (xs : List α) (init : String) :
    (xs.foldl (fun o i => o ++ f i) init).data = init.data ++ (xs.map (fun i => (f i).data)).flatten := by
  induction xs generalizing init with
  | nil => simp
  | cons x xs ih =>
    rw [List.foldl_cons, ih]
    simp [String.data_append, List.append_assoc]

/-- The characters written by the CSV writer: the header line, then one line per message. -/
theorem writerCSV_data (c : Address P B E R) (rs : List (Message P B)) :
    (writerCSV c rs).data =
      (("Public Key,BIP38 Key".data :: rs.map (fun r => (csvLine c r).data)).map
        (fun l => l ++ ['\n'])).flatten := by
  unfold writerCSV
  rw [foldl_append_data]
  simp only [List.map_cons, List.flatten_cons, List.map_map]
  congr 1

/-- Splitting a text made of newline-terminated, newline-free lines gives back the lines,
followed by the empty piece after the last newline. -/
theorem splitOn_terminated (ls : List (List Char)) (h : ∀ l ∈ ls, '\n' ∉ l) :
    ((ls.map (fun l => l ++ ['\n'])).flatten).splitOn '\n' = ls ++ [[]] := by
  induction ls with
  | nil => rfl
  | cons l ls ih =>
    have hl : '\n' ∉ l := h l (by simp)
    have hls : ∀ l' ∈ ls, '\n' ∉ l' := fun l' hl' => h l' (by simp [hl'])
    have hsplit := List.splitOnP_first (fun x => x == '\n') l
      (by intro x hx hp; exact hl (by simpa [eq_of_beq hp] using hx)) '\n' (by simp)
      ((ls.map (fun l => l ++ ['\n'])).flatten)
    have ih' := ih hls
    unfold List.splitOn at ih' ⊢
    rw [List.map_cons, List.flatten_cons, List.append_assoc, List.singleton_append, hsplit, ih',
      List.cons_append]

/-- C5: the CSV writer prints the header line `Public Key,BIP38 Key` once, first, and then one
`<public-key>,<encrypted-key>` line per message in arrival order, each line ended by a newline
(the rendered keys being free of newlines): `1 + n` lines for `n` messages, and the header
alone for none, as in a run of `main` with `--csv` in which every token failed. -/
theorem writerCSV_header_then_one_line_per_record (c : Address P B E R)
    (rs : List (Message P B)) (hnl : ∀ r ∈ rs, '\n' ∉ (csvLine c r).data) :
    (writerCSV c rs).data.splitOn '\n' =
      ("Public Key,BIP38 Key".data :: rs.map (fun r => (csvLine c r).data)) ++ [[]] ∧
    lines (writerCSV c rs).data =
      "Public Key,BIP38 Key".data :: rs.map (fun r => (csvLine c r).data) ∧
    (lines (writerCSV c rs).data).length = 1 + rs.length ∧
    writerCSV c [] = "Public Key,BIP38 Key\n" ∧
    (∀ (Atoi : String → Int) (a : Arguments) (stdin : List Char) (rng : R) (run : Run P B E R),
      a.csv = true → main c Atoi a stdin rng = Except.ok run → run.stage.out = [] →
        run.stdout = "Public Key,BIP38 Key\n") := by
  have hall : ∀ l ∈ "Public Key,BIP38 Key".data :: rs.map (fun r => (csvLine c r).data),
      '\n' ∉ l := by
    intro l hl
    rcases List.mem_cons.mp hl with h | h
    · rw [h]
      decide
    · obtain ⟨r, hr, rfl⟩ := List.mem_map.mp h
      exact hnl r hr
  have hsplit := splitOn_terminated _ hall
  rw [← writerCSV_data] at hsplit
  refine ⟨hsplit, ?_, ?_, rfl, ?_⟩
  · unfold lines
    rw [hsplit, List.dropLast_concat]
  · unfold lines
    rw [hsplit, List.dropLast_concat, List.length_cons, List.length_map]
    omega
  · intro Atoi a stdin rng run hcsv hrun hout
    have hs := (main_sink c Atoi a stdin rng run hrun).2
    rw [hs, hout]
    simp only [selectSink, hcsv, if_true, runSink]
    rfl

/-- The witness of C5: two messages written by the CSV writer. -/
theorem writerCSV_header_then_one_line_per_record_witness :
    (writerCSV fake [⟨some 1, (some 1, "secret")⟩, ⟨some 2, (some 2, "secret")⟩]).data.splitOn
        '\n' =
      ("Public Key,BIP38 Key".data ::
        [⟨some 1, (some 1, "secret")⟩, ⟨some 2, (some 2, "secret")⟩].map
          (fun r => (csvLine fake r).data)) ++ [[]] ∧
    lines (writerCSV fake [⟨some 1, (some 1, "secret")⟩, ⟨some 2, (some 2, "secret")⟩]).data =
      "Public Key,BIP38 Key".data ::
        [⟨some 1, (some 1, "secret")⟩, ⟨some 2, (some 2, "secret")⟩].map
          (fun r => (csvLine fake r).data) ∧
    (lines
      (writerCSV fake [⟨some 1, (some 1, "secret")⟩, ⟨some 2, (some 2, "secret")⟩]).data).length =
      1 + [(⟨some 1, (some 1, "secret")⟩ : Message (Option Nat) (Option Nat × String)),
        ⟨some 2, (some 2, "secret")⟩].length ∧
    writerCSV fake [] = "Public Key,BIP38 Key\n" ∧
    (∀ (Atoi : String → Int) (a : Arguments) (stdin : List Char) (rng : Nat)
      (run : Run (Option Nat) (Option Nat × String) String Nat),
      a.csv = true → main fake Atoi a stdin rng = Except.ok run → run.stage.out = [] →
        run.stdout = "Public Key,BIP38 Key\n") :=
  writerCSV_header_then_one_line_per_record fake
    [⟨some 1, (some 1, "secret")⟩, ⟨some 2, (some 2, "secret")⟩] (by decide)

end Bip38Tool
